import Mathlib

/-!
# Dynadraw (sketch.js): a shallow embedding

The sketch keeps its simulation in module-level variables and advances them once
per display frame.  Here the variables that are ever assigned become the fields of
`State`, the variables that are only initialised become constants, the values p5
supplies each frame (`mouseX`, `mouseY`, `width`, `height`, `mouseIsPressed`) become
`Input`, and every call into the p5 drawing API becomes a `Cmd` appended to the list
of commands issued by the function.

Numbers are modelled by an arbitrary linearly ordered field `α` (exact arithmetic):
`ℚ` for evaluation, `ℝ` where a square root or a limit is involved.  JavaScript
numbers are IEEE doubles; rounding, infinities and NaN are not modelled.
-/

namespace Dynadraw

/-! ## Values and drawing commands -/

/-- JavaScript values, as far as the conditions of the sketch need them. -/
inductive JSValue where
  | undefined
  | boolean (b : Bool)
  | func (name : String)
  deriving DecidableEq, Repr

/-- ToBoolean of ECMAScript on these values: a function object is truthy. -/
def JSValue.toBoolean : JSValue → Bool
  | .undefined => false
  | .boolean b => b
  | .func _ => true

/-- Colours handed to `stroke`, `fill` and `background`: a gray level or a CSS string;
`unset` stands for JavaScript `undefined` (an index outside `params.colors`). -/
inductive Colour where
  | gray (level : Nat)
  | css (code : String)
  | unset
  deriving DecidableEq, Repr

/-- Argument of `strokeCap`. -/
inductive Cap where
  | round
  deriving DecidableEq, Repr

/-- Argument of `textAlign`. -/
inductive Align where
  | left
  | right
  deriving DecidableEq, Repr

/-- First argument of `text`: a string literal, `"" + x`, or `"" + nf(x, l, r)`. -/
inductive Label (α : Type) where
  | lit (s : String)
  | num (x : α)
  | nf (x : α) (l r : Nat)
  deriving DecidableEq, Repr

/-- Calls into the p5 drawing API, in the order they are issued. -/
inductive Cmd (α : Type) where
  | createCanvas (w h : α)
  | background (c : Colour)
  | smooth
  | stroke (c : Colour)
  | noStroke
  | fill (c : Colour)
  | strokeWeight (w : α)
  | strokeCap (cap : Cap)
  | line (x1 y1 x2 y2 : α)
  | ellipse (x y w h : α)
  | rect (x y w h : α)
  | textAlign (a : Align)
  | text (t : Label α) (x y : α)
  deriving DecidableEq, Repr

/-! ## Module-level variables -/

/-- The module-level variables that the sketch assigns after their declaration. -/
structure State (α : Type) where
  px : α
  py : α
  vx : α
  vy : α
  ppx : α
  ppy : α
  k : α
  damping : α
  editing_K : Bool
  editing_D : Bool
  drawColor : Colour
  deriving DecidableEq, Repr

/-- What p5 supplies to a frame or an event handler. -/
structure Input (α : Type) where
  mouseX : α
  mouseY : α
  width : α
  height : α
  mouseIsPressed : Bool
  deriving DecidableEq, Repr

/-- The object `params` built in `setup`. -/
structure Params where
  bg : String
  colors : List String
  deriving DecidableEq, Repr

/-- The defaults of `params` (before URL parameters are merged in). -/
def defaultParams : Params :=
  { bg := "#00193c"
    colors := ["#ffffff", "#ff628c", "#FF9D00", "#fad000", "#2ca300", "#2EC4B6",
               "#5D37F0", "#00193c", "#00078"] }

/-- Reads `params.colors[i]`. -/
def Params.color (p : Params) (i : Nat) : Colour :=
  match p.colors.get? i with
  | some c => .css c
  | none => .unset

section Constants

variable (α : Type) [LinearOrderedField α]

/-- Initial value of `k` (line 37). -/
def k_init : α := 0.06
/-- Initial value of `damping` (line 38). -/
def damping_init : α := 0.88
/-- This constant relates stroke width to speed (line 39). -/
def ductus : α := 0.5
/-- Maximum stroke thickness (line 40). -/
def max_th : α := 20.0
/-- Mass of the simulated pen (line 41). -/
def mass : α := 1
/-- Slider height (line 44). -/
def sliderh : α := 25
/-- Upper end of the stiffness slider (line 45). -/
def max_K_val : α := 0.2
/-- Lower end of the stiffness slider (line 46). -/
def min_K_val : α := 0.01
/-- Upper end of the damping slider (line 47). -/
def max_D_val : α := 0.999
/-- Lower end of the damping slider (line 48). -/
def min_D_val : α := 0.250

end Constants

variable {α : Type} [LinearOrderedField α]

/-! ## The functions of the sketch -/

/-- The function `updateTrace` (lines 92-105). -/
def updateTrace (inp : Input α) (s : State α) : State α :=
  let dy := s.py - inp.mouseY
  let dx := s.px - inp.mouseX
  let fx := -s.k * dx
  let fy := -s.k * dy
  let ay := fy / mass α
  let ax := fx / mass α
  let vx := s.vx + ax
  let vy := s.vy + ay
  let vx := vx * s.damping
  let vy := vy * s.damping
  let px := s.px + vx
  let py := s.py + vy
  { s with px := px, py := py, vx := vx, vy := vy }

/-- The identifier `mousePressed` read as an expression (line 110).  The script
declares `function mousePressed()` at top level (line 128), so the identifier
denotes that function object; the button state of p5 is `mouseIsPressed`. -/
def mousePressedRef : JSValue := .func "mousePressed"

/-- The function `drawTrace` (lines 108-125); `sqrt` is the square root of p5. -/
def drawTrace (sqrt : α → α) (s : State α) : List (Cmd α) :=
  if mousePressedRef.toBoolean then
    let vh := sqrt (s.vx * s.vx + s.vy * s.vy)
    let th := max_th α - min (vh * ductus α) (max_th α)
    let th := max 1.0 th
    [.strokeWeight (th * 1.0), .stroke s.drawColor, .strokeCap .round,
      .line s.ppx s.ppy s.px s.py]
    ++ (if th > 1.0 then
          [.noStroke, .fill s.drawColor, .ellipse s.px s.py (th * 1.0) (th * 1.0)]
        else [])
  else []

/-- The function `drawSliders` (lines 167-188).  The third argument of the fifth
`text` call is `nf(sliderh,1,3)-8`, a numeric string minus a number, which
JavaScript evaluates to the number `sliderh - 8`. -/
def drawSliders (inp : Input α) (s : State α) : List (Cmd α) :=
  let K_x := inp.width * (s.k - min_K_val α) / (max_K_val α - min_K_val α)
  let D_x := inp.width * (s.damping - min_D_val α) / (max_D_val α - min_D_val α)
  [.stroke (.gray 0), .fill (.gray 200), .strokeWeight 1,
    .rect 0 0 (inp.width - 1) (sliderh α * 2),
    .line 0 (sliderh α) (inp.width - 1) (sliderh α),
    .line K_x 0 K_x (sliderh α),
    .line D_x (sliderh α) D_x (sliderh α * 2),
    .noStroke, .fill (.gray 110), .textAlign .right,
    .text (.lit "STIFFNESS") (K_x - 5) (sliderh α - 8),
    .text (.lit "DAMPING") (D_x - 5) (sliderh α * 2 - 8),
    .textAlign .left,
    .text (.num s.k) (K_x + 5) (sliderh α - 8),
    .text (.nf s.damping 1 3) (D_x + 5) (sliderh α * 2 - 8)]

/-- The function `drawCredit` (lines 191-199). -/
def drawCredit (inp : Input α) : List (Cmd α) :=
  [.fill (.gray 255), .stroke (.gray 180),
    .rect (-1) (inp.height - sliderh α) (inp.width + 1) (sliderh α),
    .fill (.gray 180), .noStroke, .textAlign .left,
    .text (.lit "Dynadraw / Paul Haeberli, 1989, port by Golan Levin, made hands-free by Oz Ramos")
      5 (inp.height - 7)]

/-- The function `updateSliders` (lines 153-164). -/
def updateSliders (inp : Input α) (s : State α) : State α × List (Cmd α) :=
  let s1 : State α :=
    if s.editing_K then
      let new_K := inp.mouseX / inp.width * (max_K_val α - min_K_val α) + min_K_val α
      let new_K := max (min_K_val α) (min (max_K_val α) new_K)
      { s with k := new_K }
    else if s.editing_D then
      let new_D := inp.mouseX / inp.width * (max_D_val α - min_D_val α) + min_D_val α
      let new_D := max (min_D_val α) (min (max_D_val α) new_D)
      { s with damping := new_D }
    else s
  (s1, drawSliders inp s1)

/-- The event handler `mousePressed` (lines 128-144). -/
def mousePressed (params : Params) (inp : Input α) (s : State α) :
    State α × List (Cmd α) :=
  let tol : α := 40
  let K_x := inp.width * (s.k - min_K_val α) / (max_K_val α - min_K_val α)
  let D_x := inp.width * (s.damping - min_D_val α) / (max_D_val α - min_D_val α)
  if |inp.mouseX - K_x| < tol ∧ inp.mouseY > 0 ∧ inp.mouseY < sliderh α then
    ({ s with editing_K := true, editing_D := false }, [])
  else if |inp.mouseX - D_x| < tol ∧ inp.mouseY > sliderh α
      ∧ inp.mouseY < sliderh α * 2 then
    ({ s with editing_D := true, editing_K := false }, [])
  else
    ({ s with editing_K := false, editing_D := false }, [.background (.css params.bg)])

/-- The event handler `mouseReleased` (lines 147-150). -/
def mouseReleased (s : State α) : State α :=
  { s with editing_K := false, editing_D := false }

/-- The function `setup` (lines 55-75); `width` and `height` are the canvas size set
by `createCanvas(windowWidth, windowHeight)`. -/
def setup (params : Params) (windowWidth windowHeight : α) : State α × List (Cmd α) :=
  let width := windowWidth
  let height := windowHeight
  let py := height / 2
  let px := width / 2
  ({ px := px, py := py, vx := 0, vy := 0, ppx := px, ppy := py,
     k := k_init α, damping := damping_init α,
     editing_K := false, editing_D := false,
     drawColor := params.color 1 },
   [.createCanvas windowWidth windowHeight, .background (.css params.bg),
    .stroke (.gray 0), .fill (.gray 0), .smooth,
    .createCanvas windowWidth windowHeight])

/-- The function `draw` (lines 78-89): the new state and the commands of the frame. -/
def draw (sqrt : α → α) (inp : Input α) (s : State α) : State α × List (Cmd α) :=
  let s1 := updateTrace inp s
  let r := updateSliders inp s1
  let s2 := r.1
  let c3 := drawCredit inp
  let c4 := drawTrace sqrt s2
  let c5 := drawSliders inp s2
  ({ s2 with ppx := s2.px, ppy := s2.py }, r.2 ++ c3 ++ c4 ++ c5)

/-- The function `keyPressed` with the one entry of `keypressFn` (lines 223-269). -/
def keyPressed (params : Params) (keyCode : Nat) (s : State α) : State α :=
  match keyCode with
  | 32 => s
  | 49 => { s with drawColor := params.color 1 }
  | 50 => { s with drawColor := params.color 2 }
  | 51 => { s with drawColor := params.color 3 }
  | 52 => { s with drawColor := params.color 4 }
  | 53 => { s with drawColor := params.color 5 }
  | 54 => { s with drawColor := params.color 6 }
  | 55 => { s with drawColor := params.color 7 }
  | _ => s

/-! ## Running the sketch -/

/-- What p5 calls after `setup`: `draw` on every frame, the handlers on events. -/
inductive Event (α : Type) where
  | frame (inp : Input α)
  | press (inp : Input α)
  | release
  | key (keyCode : Nat)

/-- The state after one call from p5. -/
def step (sqrt : α → α) (params : Params) (s : State α) : Event α → State α
  | .frame inp => (draw sqrt inp s).1
  | .press inp => (mousePressed params inp s).1
  | .release => mouseReleased s
  | .key keyCode => keyPressed params keyCode s

/-- The state after a sequence of calls from p5. -/
def runEvents (sqrt : α → α) (params : Params) (evs : List (Event α)) (s : State α) :
    State α :=
  evs.foldl (step sqrt params) s

/-- Stiffness and damping lie in the ranges of their sliders. -/
def InRange (s : State α) : Prop :=
  (0.01 ≤ s.k ∧ s.k ≤ 0.2) ∧ (0.25 ≤ s.damping ∧ s.damping ≤ 0.999)

/-- Successive calls of `updateTrace`, one per pointer sample. -/
def runTrace (inps : List (Input α)) (s : State α) : State α :=
  inps.foldl (fun st inp => updateTrace inp st) s

/-- The stroke thickness `th` of `drawTrace` (lines 111-113) as a function of the
velocity. -/
def thickness (sqrt : α → α) (vx vy : α) : α :=
  let vh := sqrt (vx * vx + vy * vy)
  let th := max_th α - min (vh * ductus α) (max_th α)
  max 1.0 th

/-- The segment that `drawTrace` draws within the frame `draw sqrt inp s`: the
arguments of its `line` call, if there is one. -/
def traceSegment (sqrt : α → α) (inp : Input α) (s : State α) : Option (α × α × α × α) :=
  (drawTrace sqrt (updateSliders inp (updateTrace inp s)).1).findSome? fun c =>
    match c with
    | .line x1 y1 x2 y2 => some (x1, y1, x2, y2)
    | _ => none

/-- The scenario of the specification: pen at rest at the origin, default stiffness
and damping. -/
def scenarioState (α : Type) [LinearOrderedField α] : State α :=
  { px := 0, py := 0, vx := 0, vy := 0, ppx := 0, ppy := 0,
    k := k_init α, damping := damping_init α,
    editing_K := false, editing_D := false, drawColor := defaultParams.color 1 }

/-- The scenario of the specification: pointer held at (100, 0), button released. -/
def scenarioInput (α : Type) [LinearOrderedField α] : Input α :=
  { mouseX := 100, mouseY := 0, width := 800, height := 600, mouseIsPressed := false }

/-- A pen at rest at the origin with the damping set to 0. -/
def undampedState : State ℚ :=
  { scenarioState ℚ with damping := 0 }

/-- A pen with stiffness 0 moving at velocity (3, -2). -/
def coastingState : State ℚ :=
  { scenarioState ℚ with k := 0, vx := 3, vy := -2 }

/-- The stiffness candidate `new_K` of `updateSliders` before clamping (line 155). -/
def candidateK (inp : Input α) : α :=
  inp.mouseX / inp.width * (max_K_val α - min_K_val α) + min_K_val α

/-- The damping candidate `new_D` of `updateSliders` before clamping (line 159). -/
def candidateD (inp : Input α) : α :=
  inp.mouseX / inp.width * (max_D_val α - min_D_val α) + min_D_val α

/-- A state in which the stiffness slider is being dragged. -/
def draggingK : State ℚ :=
  { scenarioState ℚ with editing_K := true }

/-- Pointer at x = 499 on a canvas 19 wide: the stiffness candidate is 5.0. -/
def farRight : Input ℚ :=
  { mouseX := 499, mouseY := 10, width := 19, height := 600, mouseIsPressed := true }

/-- Pointer on the knob of the stiffness slider of a canvas 19 wide (the knob of the
initial stiffness 0.06 sits at x = 5). -/
def onKnob : Input ℚ :=
  { mouseX := 5, mouseY := 10, width := 19, height := 600, mouseIsPressed := true }

/-- Pointer at x = -101 on a canvas 19 wide: the stiffness candidate is -1.0. -/
def farLeft : Input ℚ :=
  { mouseX := -101, mouseY := 10, width := 19, height := 600, mouseIsPressed := true }

/-- The stroke segment among the commands of a frame: the arguments of the `line`
call issued right after a `strokeCap` call.  In the sketch only `drawTrace` calls
`strokeCap`, directly before its `line` (lines 116-117). -/
def segmentAfterCap : List (Cmd α) → Option (α × α × α × α)
  | [] => none
  | [_] => none
  | c :: d :: rest =>
    match c, d with
    | .strokeCap _, .line x1 y1 x2 y2 => some (x1, y1, x2, y2)
    | _, _ => segmentAfterCap (d :: rest)

/-- The stroke segment that the frame `draw sqrt inp s` draws, read off the commands
the frame issues. -/
def frameSegment (sqrt : α → α) (inp : Input α) (s : State α) : Option (α × α × α × α) :=
  segmentAfterCap (draw sqrt inp s).2

/-- The pen of the scenario moving at velocity (1, 0). -/
def movingPen (α : Type) [LinearOrderedField α] : State α :=
  { scenarioState α with vx := 1 }

/-! ## Helper lemmas -/

/-- The value of a clamp lies between its bounds. -/
theorem clamp_mem {lo hi : α} (h : lo ≤ hi) (x : α) :
    lo ≤ max lo (min hi x) ∧ max lo (min hi x) ≤ hi :=
  ⟨le_max_left _ _, max_le h (min_le_left _ _)⟩

/-- The state part of `updateSliders`, by cases on the editing flags. -/
theorem updateSliders_state (inp : Input α) (s : State α) :
    (updateSliders inp s).1
      = if s.editing_K then
          { s with k := max (min_K_val α) (min (max_K_val α) (candidateK inp)) }
        else if s.editing_D then
          { s with damping := max (min_D_val α) (min (max_D_val α) (candidateD inp)) }
        else s := rfl

/-- With stiffness 0 a call of `updateTrace` only damps the velocity and advances the
position by it; the pointer plays no part. -/
theorem updateTrace_of_k_eq_zero (inp : Input α) (s : State α) (hk : s.k = 0) :
    updateTrace inp s
      = { s with px := s.px + s.vx * s.damping, py := s.py + s.vy * s.damping,
                 vx := s.vx * s.damping, vy := s.vy * s.damping } := by
  simp [updateTrace, hk]

/-- Stiffness and damping are not touched by `updateTrace`. -/
theorem updateTrace_params (inp : Input α) (s : State α) :
    (updateTrace inp s).k = s.k ∧ (updateTrace inp s).damping = s.damping :=
  ⟨rfl, rfl⟩

/-- With stiffness 0 the state after a run depends on the number of pointer samples
only, the velocity has decayed geometrically, and a pen at rest stays where it is. -/
theorem runTrace_of_k_eq_zero (inps : List (Input α)) :
    ∀ s : State α, s.k = 0 →
      (runTrace inps s).k = 0
      ∧ (runTrace inps s).damping = s.damping
      ∧ (runTrace inps s).vx = s.vx * s.damping ^ inps.length
      ∧ (runTrace inps s).vy = s.vy * s.damping ^ inps.length
      ∧ (∀ inps2 : List (Input α), inps2.length = inps.length →
          runTrace inps2 s = runTrace inps s)
      ∧ (s.vx = 0 → (runTrace inps s).px = s.px)
      ∧ (s.vy = 0 → (runTrace inps s).py = s.py) := by
  induction inps with
  | nil =>
    intro s hk
    refine ⟨hk, rfl, by simp [runTrace], by simp [runTrace], ?_, fun _ => rfl, fun _ => rfl⟩
    intro inps2 h2
    have : inps2 = [] := List.length_eq_zero.mp h2
    rw [this]
  | cons inp rest ih =>
    intro s hk
    have hstep : runTrace (inp :: rest) s = runTrace rest (updateTrace inp s) := rfl
    have hk1 : (updateTrace inp s).k = 0 := hk
    obtain ⟨h1, h2, h3, h4, h5, h6, h7⟩ := ih (updateTrace inp s) hk1
    have hu := updateTrace_of_k_eq_zero inp s hk
    refine ⟨?_, ?_, ?_, ?_, ?_, ?_, ?_⟩
    · rw [hstep]; exact h1
    · rw [hstep, h2]; rfl
    · rw [hstep, h3, hu]; simp [pow_succ]; ring
    · rw [hstep, h4, hu]; simp [pow_succ]; ring
    · intro inps2 hlen
      cases inps2 with
      | nil => simp at hlen
      | cons inp2 rest2 =>
        have hl : rest2.length = rest.length := by simpa using hlen
        have hstep2 : runTrace (inp2 :: rest2) s = runTrace rest2 (updateTrace inp2 s) := rfl
        have hu2 := updateTrace_of_k_eq_zero inp2 s hk
        rw [hstep, hstep2, hu2, ← hu]
        exact h5 rest2 hl
    · intro hv
      have hv1 : (updateTrace inp s).vx = 0 := by rw [hu]; simp [hv]
      rw [hstep, h6 hv1, hu]; simp [hv]
    · intro hv
      have hv1 : (updateTrace inp s).vy = 0 := by rw [hu]; simp [hv]
      rw [hstep, h7 hv1, hu]; simp [hv]

/-- The sliders leave the pen alone: `updateSliders` changes neither the positions
nor the velocity nor the colour. -/
theorem updateSliders_pen (inp : Input α) (s : State α) :
    (updateSliders inp s).1.px = s.px ∧ (updateSliders inp s).1.py = s.py
    ∧ (updateSliders inp s).1.ppx = s.ppx ∧ (updateSliders inp s).1.ppy = s.ppy
    ∧ (updateSliders inp s).1.vx = s.vx ∧ (updateSliders inp s).1.vy = s.vy
    ∧ (updateSliders inp s).1.drawColor = s.drawColor := by
  rw [updateSliders_state]
  split_ifs <;> exact ⟨rfl, rfl, rfl, rfl, rfl, rfl, rfl⟩

/-- The commands of `drawTrace`: the guard `if (mousePressed)` is always taken. -/
theorem drawTrace_eq (sqrt : α → α) (s : State α) :
    drawTrace sqrt s
      = [Cmd.strokeWeight (thickness sqrt s.vx s.vy * 1.0), Cmd.stroke s.drawColor,
          Cmd.strokeCap Cap.round, Cmd.line s.ppx s.ppy s.px s.py]
        ++ (if thickness sqrt s.vx s.vy > 1.0 then
              [Cmd.noStroke, Cmd.fill s.drawColor,
                Cmd.ellipse s.px s.py (thickness sqrt s.vx s.vy * 1.0)
                  (thickness sqrt s.vx s.vy * 1.0)]
            else []) := rfl

/-- The segment of a frame runs from the previous position to the position that
`updateTrace` produces. -/
theorem traceSegment_eq (sqrt : α → α) (inp : Input α) (s : State α) :
    traceSegment sqrt inp s
      = some (s.ppx, s.ppy, (updateTrace inp s).px, (updateTrace inp s).py) := by
  obtain ⟨h1, h2, h3, h4, _, _, _⟩ := updateSliders_pen inp (updateTrace inp s)
  rw [traceSegment, drawTrace_eq]
  simp only [List.cons_append, List.findSome?_cons, h1, h2, h3, h4]
  rfl

/-- The speed is not negative, so the thickness does not exceed `max_th`. -/
theorem thickness_le_max_th (vx vy : ℝ) : thickness Real.sqrt vx vy ≤ max_th ℝ := by
  have h0 : 0 ≤ Real.sqrt (vx * vx + vy * vy) := Real.sqrt_nonneg _
  have h1 : 0 ≤ min (Real.sqrt (vx * vx + vy * vy) * ductus ℝ) (max_th ℝ) :=
    le_min (mul_nonneg h0 (by norm_num [ductus])) (by norm_num [max_th])
  have h2 : (1.0 : ℝ) ≤ max_th ℝ := by norm_num [max_th]
  exact max_le h2 (by linarith)

/-- Below the floor threshold the thickness is `max_th - speed * ductus`. -/
theorem thickness_below_floor (vx vy : ℝ)
    (h : Real.sqrt (vx * vx + vy * vy) * ductus ℝ < max_th ℝ - 1.0) :
    thickness Real.sqrt vx vy = max_th ℝ - Real.sqrt (vx * vx + vy * vy) * ductus ℝ := by
  have h1 : Real.sqrt (vx * vx + vy * vy) * ductus ℝ ≤ max_th ℝ := by
    have : (0 : ℝ) ≤ 1.0 := by norm_num
    linarith
  show max 1.0 (max_th ℝ - min (Real.sqrt (vx * vx + vy * vy) * ductus ℝ) (max_th ℝ)) = _
  rw [min_eq_left h1]
  exact max_eq_right (by linarith)

/-- A run over one more sample of a fixed pointer is one more `updateTrace`. -/
theorem runTrace_replicate_succ (inp : Input α) (n : ℕ) (s : State α) :
    runTrace (List.replicate (n + 1) inp) s
      = updateTrace inp (runTrace (List.replicate n inp) s) := by
  rw [List.replicate_succ', runTrace, List.foldl_append]
  rfl

/-- Stiffness and damping stay what they are along a run of `updateTrace`. -/
theorem runTrace_replicate_params (inp : Input α) (s : State α) (n : ℕ) :
    (runTrace (List.replicate n inp) s).k = s.k
    ∧ (runTrace (List.replicate n inp) s).damping = s.damping := by
  induction n with
  | zero => exact ⟨rfl, rfl⟩
  | succ n ih =>
    rw [runTrace_replicate_succ]
    exact ⟨(updateTrace_params inp _).1.trans ih.1, (updateTrace_params inp _).2.trans ih.2⟩

/-- The handlers leave pen and sliders alone: they change flags or the colour only. -/
theorem handlers_pen (params : Params) (inp : Input α) (keyCode : Nat) (s : State α) :
    ((mousePressed params inp s).1.px = s.px ∧ (mousePressed params inp s).1.py = s.py
      ∧ (mousePressed params inp s).1.ppx = s.ppx
      ∧ (mousePressed params inp s).1.ppy = s.ppy
      ∧ (mousePressed params inp s).1.k = s.k
      ∧ (mousePressed params inp s).1.damping = s.damping)
    ∧ ((keyPressed params keyCode s).px = s.px ∧ (keyPressed params keyCode s).py = s.py
      ∧ (keyPressed params keyCode s).ppx = s.ppx
      ∧ (keyPressed params keyCode s).ppy = s.ppy
      ∧ (keyPressed params keyCode s).k = s.k
      ∧ (keyPressed params keyCode s).damping = s.damping) := by
  constructor
  · simp only [mousePressed]
    split_ifs <;> exact ⟨rfl, rfl, rfl, rfl, rfl, rfl⟩
  · unfold keyPressed
    split <;> exact ⟨rfl, rfl, rfl, rfl, rfl, rfl⟩

/-- The previous position equals the position after any sequence of calls, once it
does so at the start. -/
theorem runEvents_prev_eq (sqrt : α → α) (params : Params) (evs : List (Event α)) :
    ∀ s : State α, s.ppx = s.px → s.ppy = s.py →
      (runEvents sqrt params evs s).ppx = (runEvents sqrt params evs s).px
      ∧ (runEvents sqrt params evs s).ppy = (runEvents sqrt params evs s).py := by
  induction evs with
  | nil => intro s hx hy; exact ⟨hx, hy⟩
  | cons ev rest ih =>
    intro s hx hy
    cases ev with
    | frame inp => exact ih (draw sqrt inp s).1 rfl rfl
    | press inp =>
      obtain ⟨⟨h1, h2, h3, h4, _, _⟩, _⟩ := handlers_pen params inp 0 s
      exact ih (mousePressed params inp s).1 (by rw [h1, h3]; exact hx)
        (by rw [h2, h4]; exact hy)
    | release => exact ih (mouseReleased s) hx hy
    | key keyCode =>
      obtain ⟨_, h1, h2, h3, h4, _, _⟩ := handlers_pen params (scenarioInput α) keyCode s
      exact ih (keyPressed params keyCode s) (by rw [h1, h3]; exact hx)
        (by rw [h2, h4]; exact hy)

/-- The slider ranges are kept by `updateSliders`. -/
theorem updateSliders_inRange (inp : Input α) (s : State α) (h : InRange s) :
    InRange (updateSliders inp s).1 := by
  have hK := clamp_mem (show min_K_val α ≤ max_K_val α by norm_num [min_K_val, max_K_val])
    (candidateK inp)
  have hD := clamp_mem (show min_D_val α ≤ max_D_val α by norm_num [min_D_val, max_D_val])
    (candidateD inp)
  have hK2 : (0.01 : α) ≤ max (min_K_val α) (min (max_K_val α) (candidateK inp))
      ∧ max (min_K_val α) (min (max_K_val α) (candidateK inp)) ≤ 0.2 := hK
  have hD2 : (0.25 : α) ≤ max (min_D_val α) (min (max_D_val α) (candidateD inp))
      ∧ max (min_D_val α) (min (max_D_val α) (candidateD inp)) ≤ 0.999 :=
    ⟨le_trans (by norm_num [min_D_val]) hD.1, hD.2⟩
  rw [updateSliders_state]
  split_ifs
  · exact ⟨hK2, h.2⟩
  · exact ⟨h.1, hD2⟩
  · exact h

/-- The slider ranges are kept by every sequence of calls. -/
theorem runEvents_inRange (sqrt : α → α) (params : Params) (evs : List (Event α)) :
    ∀ s : State α, InRange s → InRange (runEvents sqrt params evs s) := by
  induction evs with
  | nil => intro s h; exact h
  | cons ev rest ih =>
    intro s h
    cases ev with
    | frame inp =>
      exact ih (draw sqrt inp s).1 (updateSliders_inRange inp (updateTrace inp s) h)
    | press inp =>
      obtain ⟨⟨_, _, _, _, h5, h6⟩, _⟩ := handlers_pen params inp 0 s
      refine ih (mousePressed params inp s).1 ?_
      unfold InRange; rw [h5, h6]; exact h
    | release => exact ih (mouseReleased s) h
    | key keyCode =>
      obtain ⟨_, _, _, _, _, h5, h6⟩ := handlers_pen params (scenarioInput α) keyCode s
      refine ih (keyPressed params keyCode s) ?_
      unfold InRange; rw [h5, h6]; exact h

/-! ### Convergence of the damped spring recurrence -/

/-- A sequence whose squares tend to 0 tends to 0. -/
theorem tendsto_zero_of_sq_tendsto_zero (x : ℕ → ℝ)
    (h : Filter.Tendsto (fun n => x n ^ 2) Filter.atTop (nhds 0)) : Filter.Tendsto x Filter.atTop (nhds 0) := by
  have h1 : Filter.Tendsto (fun n => Real.sqrt (x n ^ 2)) Filter.atTop (nhds (Real.sqrt 0)) :=
    (Real.continuous_sqrt.tendsto 0).comp h
  have h2 : Filter.Tendsto (fun n => |x n|) Filter.atTop (nhds 0) := by
    simpa [Real.sqrt_sq_eq_abs] using h1
  exact (tendsto_zero_iff_abs_tendsto_zero x).2 h2

/-- Oscillating case of the recurrence x (n+2) = t * x (n+1) - δ * x n: when
t^2 < 4δ the quadratic form x(n+1)^2 - t x(n+1) x(n) + δ x(n)^2 is positive definite
and shrinks by the factor δ in each step. -/
theorem recurrence_tendsto_zero_of_neg_disc (t δ : ℝ) (hδ0 : 0 < δ) (hδ1 : δ < 1)
    (hD : t ^ 2 < 4 * δ) (x : ℕ → ℝ)
    (hx : ∀ n, x (n + 2) = t * x (n + 1) - δ * x n) : Filter.Tendsto x Filter.atTop (nhds 0) := by
  have hQs : ∀ n, x (n + 2) ^ 2 - t * x (n + 2) * x (n + 1) + δ * x (n + 1) ^ 2
      = δ * (x (n + 1) ^ 2 - t * x (n + 1) * x n + δ * x n ^ 2) := by
    intro n; rw [hx n]; ring
  have hQn : ∀ n, x (n + 1) ^ 2 - t * x (n + 1) * x n + δ * x n ^ 2
      = δ ^ n * (x 1 ^ 2 - t * x 1 * x 0 + δ * x 0 ^ 2) := by
    intro n
    induction n with
    | zero => simp
    | succ n ih => rw [hQs, ih]; ring
  have hc : 0 < δ - t ^ 2 / 4 := by linarith
  have hb : ∀ n, x n ^ 2
      ≤ δ ^ n * ((x 1 ^ 2 - t * x 1 * x 0 + δ * x 0 ^ 2) / (δ - t ^ 2 / 4)) := by
    intro n
    have h1 : (δ - t ^ 2 / 4) * x n ^ 2
        ≤ x (n + 1) ^ 2 - t * x (n + 1) * x n + δ * x n ^ 2 := by
      nlinarith [sq_nonneg (x (n + 1) - t * x n / 2)]
    rw [hQn] at h1
    rw [← mul_div_assoc, le_div_iff₀ hc]
    linarith
  have hlim : Filter.Tendsto
      (fun n => δ ^ n * ((x 1 ^ 2 - t * x 1 * x 0 + δ * x 0 ^ 2) / (δ - t ^ 2 / 4)))
      Filter.atTop (nhds 0) := by
    have := (tendsto_pow_atTop_nhds_zero_of_lt_one hδ0.le hδ1).mul_const
      ((x 1 ^ 2 - t * x 1 * x 0 + δ * x 0 ^ 2) / (δ - t ^ 2 / 4))
    simpa using this
  exact tendsto_zero_of_sq_tendsto_zero x (squeeze_zero (fun n => sq_nonneg _) hb hlim)

/-- A first-order recurrence x (n+1) = r * x n + q^n * c with |r|, |q| ≤ ρ < 1 tends
to 0. -/
theorem forced_geometric_tendsto_zero (r q c ρ : ℝ) (hρ0 : 0 ≤ ρ) (hρ1 : ρ < 1)
    (hr : |r| ≤ ρ) (hq : |q| ≤ ρ) (x : ℕ → ℝ)
    (hx : ∀ n, x (n + 1) = r * x n + q ^ n * c) : Filter.Tendsto x Filter.atTop (nhds 0) := by
  have hb : ∀ n, |x (n + 1)| ≤ ρ ^ (n + 1) * |x 0| + (n + 1) * ρ ^ n * |c| := by
    intro n
    induction n with
    | zero =>
      rw [hx 0]
      have h1 : |r * x 0 + q ^ 0 * c| ≤ |r| * |x 0| + |c| := by
        have := abs_add (r * x 0) (q ^ 0 * c)
        simpa [abs_mul] using this
      have h2 : |r| * |x 0| ≤ ρ * |x 0| := mul_le_mul_of_nonneg_right hr (abs_nonneg _)
      simp only [pow_zero, pow_one, Nat.cast_zero, zero_add, mul_one, one_mul] at h1 ⊢
      linarith
    | succ n ih =>
      rw [hx (n + 1)]
      have h1 : |r * x (n + 1) + q ^ (n + 1) * c|
          ≤ |r| * |x (n + 1)| + |q| ^ (n + 1) * |c| := by
        have := abs_add (r * x (n + 1)) (q ^ (n + 1) * c)
        simpa [abs_mul, abs_pow] using this
      have h2 : |r| * |x (n + 1)| ≤ ρ * |x (n + 1)| :=
        mul_le_mul_of_nonneg_right hr (abs_nonneg _)
      have h3 : |q| ^ (n + 1) ≤ ρ ^ (n + 1) := pow_le_pow_left₀ (abs_nonneg _) hq _
      have h4 : |q| ^ (n + 1) * |c| ≤ ρ ^ (n + 1) * |c| :=
        mul_le_mul_of_nonneg_right h3 (abs_nonneg _)
      have h5 : ρ * |x (n + 1)| ≤ ρ * (ρ ^ (n + 1) * |x 0| + (n + 1) * ρ ^ n * |c|) :=
        mul_le_mul_of_nonneg_left ih hρ0
      calc |r * x (n + 1) + q ^ (n + 1) * c|
          ≤ ρ * (ρ ^ (n + 1) * |x 0| + (n + 1) * ρ ^ n * |c|) + ρ ^ (n + 1) * |c| := by
            linarith
        _ = ρ ^ (n + 1 + 1) * |x 0| + ((n + 1 : ℕ) + 1) * ρ ^ (n + 1) * |c| := by
            push_cast; ring
  have hp : Filter.Tendsto (fun n : ℕ => ρ ^ n) Filter.atTop (nhds 0) :=
    tendsto_pow_atTop_nhds_zero_of_lt_one hρ0 hρ1
  have hnp : Filter.Tendsto (fun n : ℕ => (n : ℝ) * ρ ^ n) Filter.atTop (nhds 0) :=
    tendsto_self_mul_const_pow_of_lt_one hρ0 hρ1
  have hlim : Filter.Tendsto (fun n : ℕ => ρ ^ (n + 1) * |x 0| + (n + 1) * ρ ^ n * |c|)
      Filter.atTop (nhds 0) := by
    have h1 : Filter.Tendsto (fun n : ℕ => ρ ^ (n + 1)) Filter.atTop (nhds 0) :=
      hp.comp (Filter.tendsto_add_atTop_nat 1)
    have h2 := ((h1.mul_const |x 0|).add ((hnp.add hp).mul_const |c|))
    simp only [zero_mul, add_zero] at h2
    refine h2.congr fun n => ?_
    ring
  have habs : Filter.Tendsto (fun n => |x (n + 1)|) Filter.atTop (nhds 0) :=
    squeeze_zero (fun n => abs_nonneg _) hb hlim
  have hshift : Filter.Tendsto (fun n => x (n + 1)) Filter.atTop (nhds 0) :=
    (tendsto_zero_iff_abs_tendsto_zero _).2 habs
  exact (Filter.tendsto_add_atTop_iff_nat 1).1 hshift

/-- Overdamped case of the recurrence x (n+2) = t * x (n+1) - δ * x n: when
4δ ≤ t^2 the characteristic polynomial has two real roots, both inside (-1, 1). -/
theorem recurrence_tendsto_zero_of_nonneg_disc (t δ : ℝ) (hδ1 : δ < 1)
    (ht1 : t < 1 + δ) (ht2 : -(1 + δ) < t) (hD : 4 * δ ≤ t ^ 2) (x : ℕ → ℝ)
    (hx : ∀ n, x (n + 2) = t * x (n + 1) - δ * x n) : Filter.Tendsto x Filter.atTop (nhds 0) := by
  have hD0 : 0 ≤ t ^ 2 - 4 * δ := by linarith
  obtain ⟨w, hw⟩ : ∃ w, w = Real.sqrt (t ^ 2 - 4 * δ) := ⟨_, rfl⟩
  have hw0 : 0 ≤ w := hw ▸ Real.sqrt_nonneg _
  have hw2 : w * w = t ^ 2 - 4 * δ := hw ▸ Real.mul_self_sqrt hD0
  have hwa : w < 2 - t := by
    by_contra hcon
    push_neg at hcon
    have h2t : 0 ≤ 2 - t := by linarith
    nlinarith [mul_self_le_mul_self h2t hcon]
  have hwb : w < 2 + t := by
    by_contra hcon
    push_neg at hcon
    have h2t : 0 ≤ 2 + t := by linarith
    nlinarith [mul_self_le_mul_self h2t hcon]
  obtain ⟨r1, hr1⟩ : ∃ r1, r1 = (t - w) / 2 := ⟨_, rfl⟩
  obtain ⟨r2, hr2⟩ : ∃ r2, r2 = (t + w) / 2 := ⟨_, rfl⟩
  have hsum : r1 + r2 = t := by rw [hr1, hr2]; ring
  have hprod : r1 * r2 = δ := by
    rw [hr1, hr2]
    have : (t - w) / 2 * ((t + w) / 2) = (t ^ 2 - w * w) / 4 := by ring
    rw [this, hw2]; ring
  have hr1a : |r1| < 1 := by
    rw [abs_lt, hr1]; constructor <;> linarith
  have hr2a : |r2| < 1 := by
    rw [abs_lt, hr2]; constructor <;> linarith
  have hu : ∀ n, x (n + 2) - r1 * x (n + 1) = r2 * (x (n + 1) - r1 * x n) := by
    intro n
    rw [hx n, ← hsum, ← hprod]; ring
  have hun : ∀ n, x (n + 1) - r1 * x n = r2 ^ n * (x 1 - r1 * x 0) := by
    intro n
    induction n with
    | zero => simp
    | succ n ih => rw [hu, ih]; ring
  refine forced_geometric_tendsto_zero r1 r2 (x 1 - r1 * x 0) (max |r1| |r2|)
    (le_max_of_le_left (abs_nonneg _)) (max_lt hr1a hr2a) (le_max_left _ _)
    (le_max_right _ _) x ?_
  intro n
  linarith [hun n]

/-- The recurrence x (n+2) = t * x (n+1) - δ * x n tends to 0 whenever 0 < δ < 1 and
|t| < 1 + δ (both roots of the characteristic polynomial lie in the unit disc). -/
theorem recurrence_tendsto_zero (t δ : ℝ) (hδ0 : 0 < δ) (hδ1 : δ < 1)
    (ht1 : t < 1 + δ) (ht2 : -(1 + δ) < t) (x : ℕ → ℝ)
    (hx : ∀ n, x (n + 2) = t * x (n + 1) - δ * x n) : Filter.Tendsto x Filter.atTop (nhds 0) := by
  rcases lt_or_le (t ^ 2) (4 * δ) with hD | hD
  · exact recurrence_tendsto_zero_of_neg_disc t δ hδ0 hδ1 hD x hx
  · exact recurrence_tendsto_zero_of_nonneg_disc t δ hδ1 ht1 ht2 hD x hx

/-- One axis of the damped spring: if v (n+1) = (v n - k * (p n - P)) * d and
p (n+1) = p n + v (n+1) with 0 < d < 1 and 0 < k < 2, then p tends to P and v to 0. -/
theorem spring_axis_tendsto (k d P : ℝ) (hk0 : 0 < k) (hk2 : k < 2) (hd0 : 0 < d)
    (hd1 : d < 1) (p v : ℕ → ℝ)
    (hv : ∀ n, v (n + 1) = (v n + -k * (p n - P)) * d)
    (hp : ∀ n, p (n + 1) = p n + v (n + 1)) :
    Filter.Tendsto p Filter.atTop (nhds P) ∧ Filter.Tendsto v Filter.atTop (nhds 0) := by
  have hrec : ∀ n, (p (n + 2) - P)
      = (1 + d - k * d) * (p (n + 1) - P) - d * (p n - P) := by
    intro n
    have h1 := hp (n + 1)
    have h2 := hv (n + 1)
    have h3 := hp n
    have h4 : n + 1 + 1 = n + 2 := rfl
    rw [h4] at h1 h2
    rw [h1, h2]
    have h5 : v (n + 1) = p (n + 1) - p n := by linarith
    rw [h5]; ring
  have hkd : 0 < k * d := mul_pos hk0 hd0
  have hkd2 : k * d < 2 * d := mul_lt_mul_of_pos_right hk2 hd0
  have he : Filter.Tendsto (fun n => p n - P) Filter.atTop (nhds 0) :=
    recurrence_tendsto_zero (1 + d - k * d) d hd0 hd1 (by linarith) (by linarith)
      (fun n => p n - P) hrec
  have hpP : Filter.Tendsto p Filter.atTop (nhds P) := by
    have := he.add_const P
    simpa using this
  refine ⟨hpP, ?_⟩
  have hshift : Filter.Tendsto (fun n => p (n + 1)) Filter.atTop (nhds P) :=
    hpP.comp (Filter.tendsto_add_atTop_nat 1)
  have hdiff : Filter.Tendsto (fun n => p (n + 1) - p n) Filter.atTop (nhds 0) := by
    have := hshift.sub hpP
    simpa using this
  have hv1 : Filter.Tendsto (fun n => v (n + 1)) Filter.atTop (nhds 0) := by
    refine hdiff.congr fun n => ?_
    linarith [hp n]
  exact (Filter.tendsto_add_atTop_iff_nat 1).1 hv1

/-- The commands of `drawTrace` below the floor threshold: the thickness is
`max_th - speed * ductus`, it exceeds 1.0, and the joint disc is drawn. -/
theorem drawTrace_below_floor (s : State ℝ)
    (h : Real.sqrt (s.vx * s.vx + s.vy * s.vy) * ductus ℝ < max_th ℝ - 1.0) :
    drawTrace Real.sqrt s
      = [Cmd.strokeWeight
            ((max_th ℝ - Real.sqrt (s.vx * s.vx + s.vy * s.vy) * ductus ℝ) * 1.0),
          Cmd.stroke s.drawColor, Cmd.strokeCap Cap.round,
          Cmd.line s.ppx s.ppy s.px s.py, Cmd.noStroke, Cmd.fill s.drawColor,
          Cmd.ellipse s.px s.py
            ((max_th ℝ - Real.sqrt (s.vx * s.vx + s.vy * s.vy) * ductus ℝ) * 1.0)
            ((max_th ℝ - Real.sqrt (s.vx * s.vx + s.vy * s.vy) * ductus ℝ) * 1.0)] := by
  have hgt : max_th ℝ - Real.sqrt (s.vx * s.vx + s.vy * s.vy) * ductus ℝ > 1.0 := by
    linarith
  rw [drawTrace_eq, thickness_below_floor s.vx s.vy h, if_pos hgt]
  rfl

/-- The commands of a frame, with the stroke segment spelled out: it runs from the
previous position held at the start of the frame to the position produced by
`updateTrace`. -/
theorem draw_commands (sqrt : α → α) (inp : Input α) (s : State α) :
    (draw sqrt inp s).2
      = drawSliders inp (updateSliders inp (updateTrace inp s)).1
        ++ drawCredit inp
        ++ ([Cmd.strokeWeight
                (thickness sqrt (updateTrace inp s).vx (updateTrace inp s).vy * 1.0),
              Cmd.stroke s.drawColor, Cmd.strokeCap Cap.round,
              Cmd.line s.ppx s.ppy (updateTrace inp s).px (updateTrace inp s).py]
            ++ (if thickness sqrt (updateTrace inp s).vx (updateTrace inp s).vy > 1.0 then
                  [Cmd.noStroke, Cmd.fill s.drawColor,
                    Cmd.ellipse (updateTrace inp s).px (updateTrace inp s).py
                      (thickness sqrt (updateTrace inp s).vx (updateTrace inp s).vy * 1.0)
                      (thickness sqrt (updateTrace inp s).vx (updateTrace inp s).vy * 1.0)]
                else []))
        ++ drawSliders inp (updateSliders inp (updateTrace inp s)).1 := by
  obtain ⟨h1, h2, h3, h4, h5, h6, h7⟩ := updateSliders_pen inp (updateTrace inp s)
  have hd : (draw sqrt inp s).2
      = drawSliders inp (updateSliders inp (updateTrace inp s)).1
        ++ drawCredit inp
        ++ drawTrace sqrt (updateSliders inp (updateTrace inp s)).1
        ++ drawSliders inp (updateSliders inp (updateTrace inp s)).1 := rfl
  have hc : (updateTrace inp s).drawColor = s.drawColor := rfl
  have hpx : (updateTrace inp s).ppx = s.ppx := rfl
  have hpy : (updateTrace inp s).ppy = s.ppy := rfl
  rw [hd, drawTrace_eq, h1, h2, h3, h4, h5, h6, h7, hc, hpx, hpy]

/-- The stroke segment read off the commands of a frame. -/
theorem frameSegment_eq (sqrt : α → α) (inp : Input α) (s : State α) :
    frameSegment sqrt inp s
      = some (s.ppx, s.ppy, (updateTrace inp s).px, (updateTrace inp s).py) := by
  rw [frameSegment, draw_commands]
  simp [drawSliders, drawCredit, segmentAfterCap]

/-! ## The integrator -/

/-- C1: one call of `updateTrace` yields, independently in each axis,
velocity_new = (velocity_old + (-k * (position_old - pointer)) / mass) * damping and
position_new = position_old + velocity_new, with mass = 1: damping multiplies the
velocity after the acceleration has been added, and the position advances by the
already damped velocity. -/
theorem updateTrace_spec (inp : Input α) (s : State α) :
    mass α = 1
    ∧ (updateTrace inp s).vx
        = (s.vx + (-s.k * (s.px - inp.mouseX)) / mass α) * s.damping
    ∧ (updateTrace inp s).vy
        = (s.vy + (-s.k * (s.py - inp.mouseY)) / mass α) * s.damping
    ∧ (updateTrace inp s).px = s.px + (updateTrace inp s).vx
    ∧ (updateTrace inp s).py = s.py + (updateTrace inp s).vy := by
  refine ⟨rfl, rfl, rfl, rfl, rfl⟩

/-- C2 (as stated, refuted): in the scenario the x-velocity after the second
`updateTrace` is 9.647616, so its decimal expansion does not begin 9.653. -/
theorem scenario_second_velocity_not_9653 :
    ¬ (9.653 ≤ (updateTrace (scenarioInput ℚ) (updateTrace (scenarioInput ℚ) (scenarioState ℚ))).vx
        ∧ (updateTrace (scenarioInput ℚ) (updateTrace (scenarioInput ℚ) (scenarioState ℚ))).vx < 9.654) := by
  norm_num [updateTrace, scenarioInput, scenarioState, mass, k_init, damping_init]

/-- C2 (amended): in the scenario mass = 1, stiffness = 0.06, damping = 0.88, pen at
rest at (0,0), pointer fixed at (100, 0): after the first `updateTrace` velocity and
position are exactly (5.28, 0); in the second call the force is (5.6832, 0), the
x-velocity is (5.28 + 5.6832) * 0.88 = 9.647616 (decimal expansion beginning 9.647),
the y-velocity is 0, and the position is (14.93, 0) to two decimal places. -/
theorem scenario_two_frames :
    mass ℚ = 1 ∧ (scenarioState ℚ).k = 0.06 ∧ (scenarioState ℚ).damping = 0.88
    ∧ (updateTrace (scenarioInput ℚ) (scenarioState ℚ)).vx = 5.28
    ∧ (updateTrace (scenarioInput ℚ) (scenarioState ℚ)).vy = 0
    ∧ (updateTrace (scenarioInput ℚ) (scenarioState ℚ)).px = 5.28
    ∧ (updateTrace (scenarioInput ℚ) (scenarioState ℚ)).py = 0
    ∧ -(updateTrace (scenarioInput ℚ) (scenarioState ℚ)).k
        * ((updateTrace (scenarioInput ℚ) (scenarioState ℚ)).px - (scenarioInput ℚ).mouseX) = 5.6832
    ∧ -(updateTrace (scenarioInput ℚ) (scenarioState ℚ)).k
        * ((updateTrace (scenarioInput ℚ) (scenarioState ℚ)).py - (scenarioInput ℚ).mouseY) = 0
    ∧ (updateTrace (scenarioInput ℚ) (updateTrace (scenarioInput ℚ) (scenarioState ℚ))).vx
        = (5.28 + 5.6832) * 0.88
    ∧ (updateTrace (scenarioInput ℚ) (updateTrace (scenarioInput ℚ) (scenarioState ℚ))).vx = 9.647616
    ∧ (updateTrace (scenarioInput ℚ) (updateTrace (scenarioInput ℚ) (scenarioState ℚ))).vy = 0
    ∧ 14.925 ≤ (updateTrace (scenarioInput ℚ) (updateTrace (scenarioInput ℚ) (scenarioState ℚ))).px
    ∧ (updateTrace (scenarioInput ℚ) (updateTrace (scenarioInput ℚ) (scenarioState ℚ))).px < 14.935
    ∧ (updateTrace (scenarioInput ℚ) (updateTrace (scenarioInput ℚ) (scenarioState ℚ))).py = 0 := by
  norm_num [updateTrace, scenarioInput, scenarioState, mass, k_init, damping_init]

/-- C7: with stiffness k = 0, for every damping, initial pen state and sequence of
pointer positions, the velocity after n calls of `updateTrace` is the initial velocity
times damping^n, the pen trajectory does not depend on the pointer positions (two
pointer sequences of the same length lead to the same state), and a pen whose initial
velocity is zero keeps its position. -/
theorem zero_stiffness_decay (inps : List (Input α)) (s : State α) (hk : s.k = 0) :
    (runTrace inps s).vx = s.vx * s.damping ^ inps.length
    ∧ (runTrace inps s).vy = s.vy * s.damping ^ inps.length
    ∧ (∀ inps2 : List (Input α), inps2.length = inps.length →
        runTrace inps2 s = runTrace inps s)
    ∧ (s.vx = 0 → s.vy = 0 →
        (runTrace inps s).px = s.px ∧ (runTrace inps s).py = s.py) := by
  obtain ⟨_, _, h3, h4, h5, h6, h7⟩ := runTrace_of_k_eq_zero inps s hk
  exact ⟨h3, h4, h5, fun hx hy => ⟨h6 hx, h7 hy⟩⟩

/-- Witness of C7: a pen with stiffness 0 and velocity (3, -2) after two frames with
the pointer at (100, 0). -/
theorem zero_stiffness_decay_witness :
    coastingState.k = 0
    ∧ (runTrace [scenarioInput ℚ, scenarioInput ℚ] coastingState).vx
        = coastingState.vx * coastingState.damping ^ 2
    ∧ (runTrace [scenarioInput ℚ, scenarioInput ℚ] coastingState).vy
        = coastingState.vy * coastingState.damping ^ 2
    ∧ runTrace [farLeft, farRight] coastingState
        = runTrace [scenarioInput ℚ, scenarioInput ℚ] coastingState :=
  have hk : coastingState.k = 0 := rfl
  ⟨hk, (zero_stiffness_decay [scenarioInput ℚ, scenarioInput ℚ] coastingState hk).1,
    (zero_stiffness_decay [scenarioInput ℚ, scenarioInput ℚ] coastingState hk).2.1,
    (zero_stiffness_decay [scenarioInput ℚ, scenarioInput ℚ] coastingState hk).2.2.1
      [farLeft, farRight] rfl⟩

/-- C8 (as stated, refuted): with damping 0, a pen at rest at the origin, stiffness
0.06 and the pointer at (100, 0), the acceleration of the frame is 6 but the velocity
after `updateTrace` is 0. -/
theorem zero_damping_velocity_is_not_acceleration :
    undampedState.damping = 0
    ∧ -undampedState.k * (undampedState.px - (scenarioInput ℚ).mouseX) / mass ℚ = 6
    ∧ (updateTrace (scenarioInput ℚ) undampedState).vx = 0
    ∧ (updateTrace (scenarioInput ℚ) undampedState).vx
        ≠ -undampedState.k * (undampedState.px - (scenarioInput ℚ).mouseX) / mass ℚ := by
  norm_num [updateTrace, undampedState, scenarioInput, scenarioState, mass, k_init]

/-- C8 (amended): with damping = 0, for every pen state, pointer and stiffness, the
velocity after one call of `updateTrace` is 0 in each axis, whatever the old velocity
and the acceleration of the frame, and the pen position does not change. -/
theorem zero_damping_stops_pen (inp : Input α) (s : State α) (hd : s.damping = 0) :
    (updateTrace inp s).vx = 0 ∧ (updateTrace inp s).vy = 0
    ∧ (updateTrace inp s).px = s.px ∧ (updateTrace inp s).py = s.py := by
  simp [updateTrace, hd]

/-- Witness of the amended C8 at the undamped pen with the pointer at (100, 0). -/
theorem zero_damping_stops_pen_witness :
    (updateTrace (scenarioInput ℚ) undampedState).vx = 0
    ∧ (updateTrace (scenarioInput ℚ) undampedState).vy = 0
    ∧ (updateTrace (scenarioInput ℚ) undampedState).px = undampedState.px
    ∧ (updateTrace (scenarioInput ℚ) undampedState).py = undampedState.py :=
  zero_damping_stops_pen (scenarioInput ℚ) undampedState rfl

/-- C6: for every stiffness k in [0.01, 0.2], every damping in [0.25, 0.999], mass = 1,
every initial pen state and every fixed pointer P, the pen states obtained by
iterating `updateTrace` with the pointer held at P converge: the position tends to P
and the velocity tends to (0, 0) as the number of frames tends to infinity. -/
theorem fixed_pointer_converges (inp : Input ℝ) (s : State ℝ)
    (hk : 0.01 ≤ s.k ∧ s.k ≤ 0.2) (hd : 0.25 ≤ s.damping ∧ s.damping ≤ 0.999) :
    mass ℝ = 1
    ∧ Filter.Tendsto (fun n => (runTrace (List.replicate n inp) s).px) Filter.atTop
        (nhds inp.mouseX)
    ∧ Filter.Tendsto (fun n => (runTrace (List.replicate n inp) s).py) Filter.atTop
        (nhds inp.mouseY)
    ∧ Filter.Tendsto (fun n => (runTrace (List.replicate n inp) s).vx) Filter.atTop
        (nhds 0)
    ∧ Filter.Tendsto (fun n => (runTrace (List.replicate n inp) s).vy) Filter.atTop
        (nhds 0) := by
  have hk0 : 0 < s.k := by
    have : (0 : ℝ) < 0.01 := by norm_num
    linarith [hk.1]
  have hk2 : s.k < 2 := by
    have : (0.2 : ℝ) < 2 := by norm_num
    linarith [hk.2]
  have hd0 : 0 < s.damping := by
    have : (0 : ℝ) < 0.25 := by norm_num
    linarith [hd.1]
  have hd1 : s.damping < 1 := by
    have : (0.999 : ℝ) < 1 := by norm_num
    linarith [hd.2]
  have hx := spring_axis_tendsto s.k s.damping inp.mouseX hk0 hk2 hd0 hd1
    (fun n => (runTrace (List.replicate n inp) s).px)
    (fun n => (runTrace (List.replicate n inp) s).vx)
    (fun n => by
      obtain ⟨h1, h2⟩ := runTrace_replicate_params inp s n
      simp only [runTrace_replicate_succ]
      rw [← h1, ← h2]
      simp [updateTrace, mass])
    (fun n => by simp only [runTrace_replicate_succ]; rfl)
  have hy := spring_axis_tendsto s.k s.damping inp.mouseY hk0 hk2 hd0 hd1
    (fun n => (runTrace (List.replicate n inp) s).py)
    (fun n => (runTrace (List.replicate n inp) s).vy)
    (fun n => by
      obtain ⟨h1, h2⟩ := runTrace_replicate_params inp s n
      simp only [runTrace_replicate_succ]
      rw [← h1, ← h2]
      simp [updateTrace, mass])
    (fun n => by simp only [runTrace_replicate_succ]; rfl)
  exact ⟨rfl, hx.1, hy.1, hx.2, hy.2⟩

/-- Witness of C6: the scenario (k = 0.06, damping = 0.88, pen at rest at the origin,
pointer held at (100, 0)). -/
theorem fixed_pointer_converges_witness :
    ((0.01 : ℝ) ≤ (scenarioState ℝ).k ∧ (scenarioState ℝ).k ≤ 0.2)
    ∧ ((0.25 : ℝ) ≤ (scenarioState ℝ).damping ∧ (scenarioState ℝ).damping ≤ 0.999)
    ∧ Filter.Tendsto
        (fun n => (runTrace (List.replicate n (scenarioInput ℝ)) (scenarioState ℝ)).px)
        Filter.atTop (nhds 100) :=
  have hk : (0.01 : ℝ) ≤ (scenarioState ℝ).k ∧ (scenarioState ℝ).k ≤ 0.2 := by
    norm_num [scenarioState, k_init]
  have hd : (0.25 : ℝ) ≤ (scenarioState ℝ).damping ∧ (scenarioState ℝ).damping ≤ 0.999 := by
    norm_num [scenarioState, damping_init]
  ⟨hk, hd, (fixed_pointer_converges (scenarioInput ℝ) (scenarioState ℝ) hk hd).2.1⟩

/-! ## The sliders -/

/-- C9: starting from the initial values k = 0.06 and damping = 0.88, for every
pointer x-coordinate, every positive canvas width and every setting of the editing
flags, after `updateSliders` k lies in [0.01, 0.2] and damping in [0.25, 0.999]; the
stored value is max(min_val, min(max_val, candidate)), so that a stiffness candidate
of 5.0 is stored as exactly 0.2 and a candidate of -1.0 as exactly 0.01.  The ranges
also hold after every sequence of frames and events that follows `setup`, on canvases
of positive width. -/
theorem updateSliders_clamps (inp : Input α) (s : State α) (hw : 0 < inp.width)
    (hk : s.k = 0.06) (hd : s.damping = 0.88)
    (sqrt : α → α) (params : Params) (w h : α) (evs : List (Event α))
    (hevs : ∀ i : Input α, Event.frame i ∈ evs → 0 < i.width) :
    ((0.01 ≤ (runEvents sqrt params evs (setup params w h).1).k
        ∧ (runEvents sqrt params evs (setup params w h).1).k ≤ 0.2)
      ∧ (0.25 ≤ (runEvents sqrt params evs (setup params w h).1).damping
        ∧ (runEvents sqrt params evs (setup params w h).1).damping ≤ 0.999))
    ∧ (0.01 ≤ (updateSliders inp s).1.k ∧ (updateSliders inp s).1.k ≤ 0.2)
    ∧ (0.25 ≤ (updateSliders inp s).1.damping ∧ (updateSliders inp s).1.damping ≤ 0.999)
    ∧ (s.editing_K = true →
        (updateSliders inp s).1.k
          = max (min_K_val α) (min (max_K_val α)
              (inp.mouseX / inp.width * (max_K_val α - min_K_val α) + min_K_val α)))
    ∧ (s.editing_K = false → s.editing_D = true →
        (updateSliders inp s).1.damping
          = max (min_D_val α) (min (max_D_val α)
              (inp.mouseX / inp.width * (max_D_val α - min_D_val α) + min_D_val α)))
    ∧ (s.editing_K = true → candidateK inp = 5.0 → (updateSliders inp s).1.k = 0.2)
    ∧ (s.editing_K = true → candidateK inp = -1.0 → (updateSliders inp s).1.k = 0.01) := by
  have hK := clamp_mem (show min_K_val α ≤ max_K_val α by norm_num [min_K_val, max_K_val])
    (candidateK inp)
  have hD := clamp_mem (show min_D_val α ≤ max_D_val α by norm_num [min_D_val, max_D_val])
    (candidateD inp)
  have hKlo : min_K_val α = 0.01 := rfl
  have hKhi : max_K_val α = 0.2 := rfl
  have _hw := hw
  have _hevs := hevs
  have hsetup : InRange (setup params w h).1 := by
    refine ⟨?_, ?_⟩
    · show (0.01 : α) ≤ k_init α ∧ k_init α ≤ 0.2
      norm_num [k_init]
    · show (0.25 : α) ≤ damping_init α ∧ damping_init α ≤ 0.999
      norm_num [damping_init]
  refine ⟨runEvents_inRange sqrt params evs _ hsetup, ?_⟩
  rw [updateSliders_state]
  refine ⟨?_, ?_, ?_, ?_, ?_, ?_⟩
  · by_cases h1 : s.editing_K = true
    · rw [if_pos h1]; rw [hKlo, hKhi] at hK; exact hK
    · rw [if_neg h1]
      by_cases h2 : s.editing_D = true
      · rw [if_pos h2]; show 0.01 ≤ s.k ∧ s.k ≤ 0.2; rw [hk]; norm_num
      · rw [if_neg h2, hk]; norm_num
  · by_cases h1 : s.editing_K = true
    · rw [if_pos h1]; show 0.25 ≤ s.damping ∧ s.damping ≤ 0.999; rw [hd]; norm_num
    · rw [if_neg h1]
      by_cases h2 : s.editing_D = true
      · rw [if_pos h2]
        exact ⟨le_trans (by norm_num [min_D_val]) hD.1,
          le_trans hD.2 (by norm_num [max_D_val])⟩
      · rw [if_neg h2, hd]; norm_num
  · intro h1; rw [if_pos h1]; rfl
  · intro h1 h2
    rw [if_neg (by simp [h1]), if_pos h2]; rfl
  · intro h1 hc
    rw [if_pos h1]
    show max (min_K_val α) (min (max_K_val α) (candidateK inp)) = 0.2
    rw [hc, hKlo, hKhi]
    norm_num
  · intro h1 hc
    rw [if_pos h1]
    show max (min_K_val α) (min (max_K_val α) (candidateK inp)) = 0.01
    rw [hc, hKlo, hKhi]
    norm_num

/-- Witness of C9: dragging the stiffness slider from the initial state with the
pointer far to the right (candidate 5.0) stores exactly 0.2, also when the drag is
played as a press followed by a frame after `setup`. -/
theorem updateSliders_clamps_witness :
    (0 : ℚ) < farRight.width ∧ draggingK.k = 0.06 ∧ draggingK.damping = 0.88
    ∧ (∀ i : Input ℚ, Event.frame i ∈ [Event.press onKnob, Event.frame farRight] →
        0 < i.width)
    ∧ candidateK farRight = 5.0 ∧ (updateSliders farRight draggingK).1.k = 0.2
    ∧ (runEvents id defaultParams [Event.press onKnob, Event.frame farRight]
        (setup defaultParams 19 600).1).k ≤ 0.2 :=
  have hc : candidateK farRight = 5.0 := by
    norm_num [candidateK, farRight, max_K_val, min_K_val]
  have hk : draggingK.k = 0.06 := by norm_num [draggingK, scenarioState, k_init]
  have hd : draggingK.damping = 0.88 := by norm_num [draggingK, scenarioState, damping_init]
  have hw : (0 : ℚ) < farRight.width := by norm_num [farRight]
  have hevs : ∀ i : Input ℚ, Event.frame i ∈ [Event.press onKnob, Event.frame farRight] →
      0 < i.width := by
    intro i hi
    simp only [List.mem_cons, List.mem_singleton, Event.frame.injEq, List.mem_nil_iff,
      or_false, false_or, reduceCtorEq] at hi
    rw [hi]; exact hw
  ⟨hw, hk, hd, hevs, hc,
    (updateSliders_clamps farRight draggingK hw hk hd id defaultParams 19 600
      [Event.press onKnob, Event.frame farRight] hevs).2.2.2.2.2.1 rfl hc,
    (updateSliders_clamps farRight draggingK hw hk hd id defaultParams 19 600
      [Event.press onKnob, Event.frame farRight] hevs).1.1.2⟩

/-! ## The renderer -/

/-- C3: for every velocity, with ductus = 0.5 and max_th = 20, the thickness computed
by `drawTrace`, th = max(1.0, max_th - min(sqrt(vx*vx + vy*vy) * ductus, max_th)),
satisfies 1.0 <= th <= max_th; it is the stroke weight of the segment and the
diameter of the disc, so nothing is drawn with zero or negative thickness. -/
theorem thickness_bounds (s : State ℝ) :
    ductus ℝ = 0.5 ∧ max_th ℝ = 20
    ∧ thickness Real.sqrt s.vx s.vy
        = max 1.0 (max_th ℝ
            - min (Real.sqrt (s.vx * s.vx + s.vy * s.vy) * ductus ℝ) (max_th ℝ))
    ∧ 1.0 ≤ thickness Real.sqrt s.vx s.vy
    ∧ thickness Real.sqrt s.vx s.vy ≤ max_th ℝ
    ∧ 0 < thickness Real.sqrt s.vx s.vy * 1.0
    ∧ drawTrace Real.sqrt s
        = [Cmd.strokeWeight (thickness Real.sqrt s.vx s.vy * 1.0), Cmd.stroke s.drawColor,
            Cmd.strokeCap Cap.round, Cmd.line s.ppx s.ppy s.px s.py]
          ++ (if thickness Real.sqrt s.vx s.vy > 1.0 then
                [Cmd.noStroke, Cmd.fill s.drawColor,
                  Cmd.ellipse s.px s.py (thickness Real.sqrt s.vx s.vy * 1.0)
                    (thickness Real.sqrt s.vx s.vy * 1.0)]
              else []) := by
  have h1 : (1.0 : ℝ) ≤ thickness Real.sqrt s.vx s.vy := le_max_left _ _
  refine ⟨by norm_num [ductus], by norm_num [max_th], rfl, h1,
    thickness_le_max_th s.vx s.vy, ?_, drawTrace_eq Real.sqrt s⟩
  have : (0 : ℝ) < 1.0 := by norm_num
  nlinarith

/-- C4: the thickness computed by `drawTrace` is strictly decreasing in speed below
the floor threshold: for two pen states with speeds s1 < s2 and
s2 * ductus < max_th - 1.0, `drawTrace` draws the first with a stroke weight (and
joint disc) th1 and the second with th2, each being
max(1.0, max_th - min(speed * ductus, max_th)), and th1 > th2. -/
theorem thickness_strictly_decreasing (s1 s2 : State ℝ)
    (hlt : Real.sqrt (s1.vx * s1.vx + s1.vy * s1.vy)
      < Real.sqrt (s2.vx * s2.vx + s2.vy * s2.vy))
    (hfloor : Real.sqrt (s2.vx * s2.vx + s2.vy * s2.vy) * ductus ℝ < max_th ℝ - 1.0) :
    ∃ th1 th2 : ℝ,
      drawTrace Real.sqrt s1
        = [Cmd.strokeWeight (th1 * 1.0), Cmd.stroke s1.drawColor, Cmd.strokeCap Cap.round,
            Cmd.line s1.ppx s1.ppy s1.px s1.py, Cmd.noStroke, Cmd.fill s1.drawColor,
            Cmd.ellipse s1.px s1.py (th1 * 1.0) (th1 * 1.0)]
      ∧ drawTrace Real.sqrt s2
        = [Cmd.strokeWeight (th2 * 1.0), Cmd.stroke s2.drawColor, Cmd.strokeCap Cap.round,
            Cmd.line s2.ppx s2.ppy s2.px s2.py, Cmd.noStroke, Cmd.fill s2.drawColor,
            Cmd.ellipse s2.px s2.py (th2 * 1.0) (th2 * 1.0)]
      ∧ th1 = max 1.0 (max_th ℝ
          - min (Real.sqrt (s1.vx * s1.vx + s1.vy * s1.vy) * ductus ℝ) (max_th ℝ))
      ∧ th2 = max 1.0 (max_th ℝ
          - min (Real.sqrt (s2.vx * s2.vx + s2.vy * s2.vy) * ductus ℝ) (max_th ℝ))
      ∧ th1 = thickness Real.sqrt s1.vx s1.vy
      ∧ th2 = thickness Real.sqrt s2.vx s2.vy
      ∧ th1 > th2
      ∧ th1 * 1.0 > th2 * 1.0 := by
  have hd : (0 : ℝ) < ductus ℝ := by norm_num [ductus]
  have h12 : Real.sqrt (s1.vx * s1.vx + s1.vy * s1.vy) * ductus ℝ
      < Real.sqrt (s2.vx * s2.vx + s2.vy * s2.vy) * ductus ℝ :=
    mul_lt_mul_of_pos_right hlt hd
  have hfloor1 := h12.trans hfloor
  have e1 := thickness_below_floor s1.vx s1.vy hfloor1
  have e2 := thickness_below_floor s2.vx s2.vy hfloor
  have hgt : max_th ℝ - Real.sqrt (s1.vx * s1.vx + s1.vy * s1.vy) * ductus ℝ
      > max_th ℝ - Real.sqrt (s2.vx * s2.vx + s2.vy * s2.vy) * ductus ℝ := by
    linarith
  refine ⟨max_th ℝ - Real.sqrt (s1.vx * s1.vx + s1.vy * s1.vy) * ductus ℝ,
    max_th ℝ - Real.sqrt (s2.vx * s2.vx + s2.vy * s2.vy) * ductus ℝ,
    drawTrace_below_floor s1 hfloor1, drawTrace_below_floor s2 hfloor,
    e1.symm, e2.symm, e1.symm, e2.symm, hgt, ?_⟩
  have h1 : (0 : ℝ) < 1.0 := by norm_num
  exact mul_lt_mul_of_pos_right hgt h1

/-- Witness of C4: the pen at rest against the pen moving at velocity (1, 0); the
first is drawn with stroke weight 20, the second with 19.5. -/
theorem thickness_strictly_decreasing_witness :
    Real.sqrt ((scenarioState ℝ).vx * (scenarioState ℝ).vx
        + (scenarioState ℝ).vy * (scenarioState ℝ).vy)
      < Real.sqrt ((movingPen ℝ).vx * (movingPen ℝ).vx + (movingPen ℝ).vy * (movingPen ℝ).vy)
    ∧ Real.sqrt ((movingPen ℝ).vx * (movingPen ℝ).vx + (movingPen ℝ).vy * (movingPen ℝ).vy)
        * ductus ℝ < max_th ℝ - 1.0
    ∧ ∃ th1 th2 : ℝ,
      (drawTrace Real.sqrt (scenarioState ℝ)).head? = some (Cmd.strokeWeight (th1 * 1.0))
      ∧ (drawTrace Real.sqrt (movingPen ℝ)).head? = some (Cmd.strokeWeight (th2 * 1.0))
      ∧ th1 > th2 :=
  have h1 : Real.sqrt ((scenarioState ℝ).vx * (scenarioState ℝ).vx
        + (scenarioState ℝ).vy * (scenarioState ℝ).vy)
      < Real.sqrt ((movingPen ℝ).vx * (movingPen ℝ).vx
        + (movingPen ℝ).vy * (movingPen ℝ).vy) := by
    norm_num [scenarioState, movingPen]
  have h2 : Real.sqrt ((movingPen ℝ).vx * (movingPen ℝ).vx
        + (movingPen ℝ).vy * (movingPen ℝ).vy) * ductus ℝ < max_th ℝ - 1.0 := by
    norm_num [scenarioState, movingPen, ductus, max_th]
  ⟨h1, h2,
    (thickness_strictly_decreasing (scenarioState ℝ) (movingPen ℝ) h1 h2).elim
      fun th1 h => h.elim fun th2 h =>
        ⟨th1, th2, by rw [h.1]; rfl, by rw [h.2.1]; rfl, h.2.2.2.2.2.2.1⟩⟩

/-- C5 (the code at a released button): whatever the square root, the pointer, the
canvas and the pen state, with `mouseIsPressed = false` the guard of `drawTrace` is
still taken, because `mousePressed` is a function object: `drawTrace` issues its
stroke settings and its `line`, and the frame contains that segment.  In the scenario
(button released, pen at rest at the origin, pointer at (100, 0)) the frame draws the
segment from (0, 0) to (5.28, 0). -/
theorem drawTrace_draws_with_button_released (sqrt : α → α) (sqrtQ : ℚ → ℚ)
    (mx my w h : α) (s : State α) :
    mousePressedRef.toBoolean = true
    ∧ drawTrace sqrt s ≠ []
    ∧ Cmd.strokeWeight (thickness sqrt s.vx s.vy * 1.0) ∈ drawTrace sqrt s
    ∧ Cmd.line s.ppx s.ppy s.px s.py ∈ drawTrace sqrt s
    ∧ traceSegment sqrt
        { mouseX := mx, mouseY := my, width := w, height := h, mouseIsPressed := false } s
      = some (s.ppx, s.ppy,
          (updateTrace
            { mouseX := mx, mouseY := my, width := w, height := h,
              mouseIsPressed := false } s).px,
          (updateTrace
            { mouseX := mx, mouseY := my, width := w, height := h,
              mouseIsPressed := false } s).py)
    ∧ (scenarioInput ℚ).mouseIsPressed = false
    ∧ traceSegment sqrtQ (scenarioInput ℚ) (scenarioState ℚ) = some (0, 0, 5.28, 0) := by
  refine ⟨rfl, ?_, ?_, ?_, traceSegment_eq sqrt _ s, rfl, ?_⟩
  · rw [drawTrace_eq]; simp
  · rw [drawTrace_eq]; simp
  · rw [drawTrace_eq]; simp
  · rw [traceSegment_eq]
    norm_num [updateTrace, scenarioInput, scenarioState, mass, k_init, damping_init]

/-! ## Frames -/

/-- C10: after `setup`, after every execution of `draw` and after every sequence of
frames and events that follows `setup`, the previous position equals the current
position; among the commands that a frame issues, the segment drawn by `drawTrace`
starts at the previous position held at the start of the frame, which is the pen
position reached at the end of the frame before, and ends at the position produced by
this frame's `updateTrace`; hence the segment of the next frame starts where the
segment of this frame ends. -/
theorem stroke_continuity (sqrt : α → α) (params : Params) (w h : α)
    (evs : List (Event α)) (inp inp2 : Input α) (s : State α) :
    ((setup params w h).1.ppx = (setup params w h).1.px
      ∧ (setup params w h).1.ppy = (setup params w h).1.py)
    ∧ ((runEvents sqrt params evs (setup params w h).1).ppx
          = (runEvents sqrt params evs (setup params w h).1).px
      ∧ (runEvents sqrt params evs (setup params w h).1).ppy
          = (runEvents sqrt params evs (setup params w h).1).py)
    ∧ ((draw sqrt inp s).1.ppx = (draw sqrt inp s).1.px
      ∧ (draw sqrt inp s).1.ppy = (draw sqrt inp s).1.py)
    ∧ (draw sqrt inp s).1.px = (updateTrace inp s).px
    ∧ (draw sqrt inp s).1.py = (updateTrace inp s).py
    ∧ traceSegment sqrt inp s
        = some (s.ppx, s.ppy, (updateTrace inp s).px, (updateTrace inp s).py)
    ∧ traceSegment sqrt inp2 (draw sqrt inp s).1
        = some ((updateTrace inp s).px, (updateTrace inp s).py,
            (updateTrace inp2 (draw sqrt inp s).1).px,
            (updateTrace inp2 (draw sqrt inp s).1).py)
    ∧ (draw sqrt inp s).2
        = drawSliders inp (updateSliders inp (updateTrace inp s)).1
          ++ drawCredit inp
          ++ ([Cmd.strokeWeight
                  (thickness sqrt (updateTrace inp s).vx (updateTrace inp s).vy * 1.0),
                Cmd.stroke s.drawColor, Cmd.strokeCap Cap.round,
                Cmd.line s.ppx s.ppy (updateTrace inp s).px (updateTrace inp s).py]
              ++ (if thickness sqrt (updateTrace inp s).vx (updateTrace inp s).vy > 1.0
                  then
                    [Cmd.noStroke, Cmd.fill s.drawColor,
                      Cmd.ellipse (updateTrace inp s).px (updateTrace inp s).py
                        (thickness sqrt (updateTrace inp s).vx (updateTrace inp s).vy * 1.0)
                        (thickness sqrt (updateTrace inp s).vx (updateTrace inp s).vy * 1.0)]
                  else []))
          ++ drawSliders inp (updateSliders inp (updateTrace inp s)).1
    ∧ Cmd.line s.ppx s.ppy (updateTrace inp s).px (updateTrace inp s).py
        ∈ (draw sqrt inp s).2
    ∧ Cmd.line (updateTrace inp s).px (updateTrace inp s).py
          (updateTrace inp2 (draw sqrt inp s).1).px
          (updateTrace inp2 (draw sqrt inp s).1).py
        ∈ (draw sqrt inp2 (draw sqrt inp s).1).2
    ∧ segmentAfterCap (draw sqrt inp s).2
        = some (s.ppx, s.ppy, (updateTrace inp s).px, (updateTrace inp s).py)
    ∧ segmentAfterCap (draw sqrt inp2 (draw sqrt inp s).1).2
        = some ((updateTrace inp s).px, (updateTrace inp s).py,
            (updateTrace inp2 (draw sqrt inp s).1).px,
            (updateTrace inp2 (draw sqrt inp s).1).py)
    ∧ segmentAfterCap
          (draw sqrt inp (runEvents sqrt params evs (setup params w h).1)).2
        = some ((runEvents sqrt params evs (setup params w h).1).px,
            (runEvents sqrt params evs (setup params w h).1).py,
            (updateTrace inp (runEvents sqrt params evs (setup params w h).1)).px,
            (updateTrace inp (runEvents sqrt params evs (setup params w h).1)).py) := by
  obtain ⟨h1, h2, _, _, _, _, _⟩ := updateSliders_pen inp (updateTrace inp s)
  have hx : (draw sqrt inp s).1.px = (updateTrace inp s).px := h1
  have hy : (draw sqrt inp s).1.py = (updateTrace inp s).py := h2
  have hpx : (draw sqrt inp s).1.ppx = (updateTrace inp s).px := h1
  have hpy : (draw sqrt inp s).1.ppy = (updateTrace inp s).py := h2
  have hinv := runEvents_prev_eq sqrt params evs (setup params w h).1 rfl rfl
  have hmem : ∀ (i : Input α) (st : State α),
      Cmd.line st.ppx st.ppy (updateTrace i st).px (updateTrace i st).py
        ∈ (draw sqrt i st).2 := by
    intro i st
    rw [draw_commands]
    simp
  have hseg : ∀ (i : Input α) (st : State α),
      segmentAfterCap (draw sqrt i st).2
        = some (st.ppx, st.ppy, (updateTrace i st).px, (updateTrace i st).py) :=
    fun i st => frameSegment_eq sqrt i st
  refine ⟨⟨rfl, rfl⟩, hinv,
    ⟨hpx.trans hx.symm, hpy.trans hy.symm⟩, hx, hy,
    traceSegment_eq sqrt inp s, ?_, draw_commands sqrt inp s, hmem inp s, ?_,
    hseg inp s, ?_, ?_⟩
  · rw [traceSegment_eq, hpx, hpy]
  · have := hmem inp2 (draw sqrt inp s).1
    rwa [hpx, hpy] at this
  · rw [hseg, hpx, hpy]
  · rw [hseg, hinv.1, hinv.2]

end Dynadraw
